import Mathlib

/-!
Shallow embedding of `src/app.py` (Option Portfolio Hedge Scanner).

Python floats are modelled as exact rationals (`ℚ`); numpy arrays and
pandas columns as Lean lists.  The embedding covers:

* the portfolio table rows and the long/short Greek sign enforcement
  (`np.where(df['Long/Short'] == 'Short', -g, g)`, app.py lines 67-86);
* the net-Greek aggregation (lines 89-92);
* the hedge instrument menu and the `hedge_greeks` selection that keeps
  only delta/gamma/vega columns (lines 95-109);
* the optimization objective `hedge_cost` (lines 135-146);
* the scenario results table (lines 166-189), modelled by `scenarioRow`;
* the recommended-trades loop (lines 194-200), with numpy's
  round-half-to-even semantics for `x.round(0)`.

The Black-Scholes pricer discussed by the specification is not present in
`src/`; where a claim needs it, a definition explicitly modelled from the
spec is provided further below.
-/

/-- The `Long/Short` column of the portfolio editor. -/
inductive Side where
  | Long : Side
  | Short : Side
deriving DecidableEq, Repr

/-- One row of the portfolio table: a position size in bbl together with
long-basis per-bbl Greeks (app.py lines 25-36). -/
structure PortfolioRow where
  longShort : Side
  position_bbl : ℚ
  delta_per_bbl : ℚ
  gamma_per_bbl : ℚ
  vega_per_bbl : ℚ
  theta_per_bbl : ℚ
deriving DecidableEq, Repr

/-- `df_port['effective_delta']` (app.py lines 67-71): the long-basis delta,
negated for short rows. -/
def effective_delta (r : PortfolioRow) : ℚ :=
  if r.longShort = Side.Short then -r.delta_per_bbl else r.delta_per_bbl

/-- `df_port['effective_gamma']` (app.py lines 72-76). -/
def effective_gamma (r : PortfolioRow) : ℚ :=
  if r.longShort = Side.Short then -r.gamma_per_bbl else r.gamma_per_bbl

/-- `df_port['effective_vega']` (app.py lines 77-81). -/
def effective_vega (r : PortfolioRow) : ℚ :=
  if r.longShort = Side.Short then -r.vega_per_bbl else r.vega_per_bbl

/-- `df_port['effective_theta']` (app.py lines 82-86). -/
def effective_theta (r : PortfolioRow) : ℚ :=
  if r.longShort = Side.Short then -r.theta_per_bbl else r.theta_per_bbl

/-- `net_delta = (df_port['effective_delta'] * df_port['Position_bbl']).sum()`
(app.py line 89). -/
def net_delta (rows : List PortfolioRow) : ℚ :=
  (rows.map (fun r => effective_delta r * r.position_bbl)).sum

/-- `net_gamma` (app.py line 90). -/
def net_gamma (rows : List PortfolioRow) : ℚ :=
  (rows.map (fun r => effective_gamma r * r.position_bbl)).sum

/-- `net_vega` (app.py line 91). -/
def net_vega (rows : List PortfolioRow) : ℚ :=
  (rows.map (fun r => effective_vega r * r.position_bbl)).sum

/-- `net_theta` (app.py line 92). -/
def net_theta (rows : List PortfolioRow) : ℚ :=
  (rows.map (fun r => effective_theta r * r.position_bbl)).sum

/-- One row of the hedge menu (app.py lines 95-102): per-bbl long-basis
Greeks and a per-bbl transaction cost. -/
structure HedgeInstrument where
  delta_per_bbl : ℚ
  gamma_per_bbl : ℚ
  vega_per_bbl : ℚ
  theta_per_bbl : ℚ
  cost_per_bbl : ℚ
deriving DecidableEq, Repr

/-- The static hedge menu hard-coded at app.py lines 95-102
(WTI Future, Call 82.5, Put 77.5, Call 85). -/
def defaultHedges : List HedgeInstrument :=
  [⟨1.0, 0.0, 0.0, 0.0, 0.0⟩,
   ⟨0.55, 0.025, 0.18, -0.06, 1.80⟩,
   ⟨0.25, 0.035, 0.14, -0.05, 1.45⟩,
   ⟨0.15, 0.01, 0.06, -0.02, 0.75⟩]

/-- `hedges["Instrument"].values` (app.py line 110). -/
def defaultHedgeNames : List String :=
  ["WTI Future", "Call 82.5", "Put 77.5", "Call 85"]

/-- Dot product of two equal-length vectors (`@` on numpy arrays). -/
def dot (a b : List ℚ) : ℚ :=
  (List.zipWith (· * ·) a b).sum

/-- `hedge_greeks[:, 0] @ x` (app.py line 136): the hedge basket's delta.
`hedge_greeks` is `hedges[["Delta_per_bbl", "Gamma_per_bbl", "Vega_per_bbl"]]`
(app.py line 108) — the theta column is dropped before optimization. -/
def hedge_delta (hs : List HedgeInstrument) (x : List ℚ) : ℚ :=
  dot (hs.map (fun h => h.delta_per_bbl)) x

/-- `hedge_greeks[:, 1] @ x` (app.py line 137). -/
def hedge_gamma (hs : List HedgeInstrument) (x : List ℚ) : ℚ :=
  dot (hs.map (fun h => h.gamma_per_bbl)) x

/-- `hedge_greeks[:, 2] @ x` (app.py line 138). -/
def hedge_vega (hs : List HedgeInstrument) (x : List ℚ) : ℚ :=
  dot (hs.map (fun h => h.vega_per_bbl)) x

/-- `np.abs(hedge_costs @ x)` (app.py line 145): the transaction-cost term
of the objective, the absolute value of the dot product of per-bbl costs
with the quantity vector. -/
def costTerm (hs : List HedgeInstrument) (x : List ℚ) : ℚ :=
  |dot (hs.map (fun h => h.cost_per_bbl)) x|

/-- The optimization objective `hedge_cost(x, target_delta, target_gamma,
target_vega)` (app.py lines 135-146):
`cost + 100 * ((Δ-tΔ)² + 10(Γ-tΓ)² + 5(V-tV)²)` with
`cost = np.abs(hedge_costs @ x)`. -/
def hedge_cost (hs : List HedgeInstrument) (x : List ℚ)
    (target_delta target_gamma target_vega : ℚ) : ℚ :=
  let greek_error :=
    (hedge_delta hs x - target_delta) ^ 2 +
    10 * (hedge_gamma hs x - target_gamma) ^ 2 +
    5 * (hedge_vega hs x - target_vega) ^ 2
  costTerm hs x + 100 * greek_error

/-- numpy's `x.round(0)` rounds half to even (banker's rounding). -/
def roundHalfEven (q : ℚ) : ℤ :=
  let f := ⌊q⌋
  let r := q - f
  if r < 1 / 2 then f
  else if 1 / 2 < r then f + 1
  else if 2 ∣ f then f else f + 1

/-- Direction of a recommended trade (app.py line 198). -/
inductive Direction where
  | BUY : Direction
  | SELL : Direction
deriving DecidableEq, Repr

/-- One line printed by the recommended-trades loop (app.py line 200):
direction, `abs(qty)` in bbl, instrument name, and
`cost = hedge_costs[i] * abs(qty)` (line 199). -/
structure Trade where
  direction : Direction
  qty_bbl : ℕ
  name : String
  cost : ℚ
deriving DecidableEq, Repr

/-- The body of the recommended-trades loop (app.py lines 196-200) for one
instrument: `qty = x_i.round(0).astype(int)`; a line is emitted only when
`abs(qty) > 10`, with `BUY` when `qty > 0` and `SELL` otherwise. -/
def tradeLine (name : String) (cost_per_bbl : ℚ) (x : ℚ) : Option Trade :=
  let qty := roundHalfEven x
  if 10 < qty.natAbs then
    some ⟨if 0 < qty then Direction.BUY else Direction.SELL,
          qty.natAbs, name, cost_per_bbl * qty.natAbs⟩
  else none

/-- The full recommended-trades loop (app.py lines 194-200):
`for name, qty in zip(hedge_names, best_hedge)`, keeping only the emitted
lines. `namesCosts` pairs `hedge_names` with `hedge_costs`. -/
def recommendedTrades (namesCosts : List (String × ℚ)) (xs : List ℚ) :
    List Trade :=
  (namesCosts.zip xs).filterMap (fun p => tradeLine p.1.1 p.1.2 p.2)

/-- The outcome of one `scipy.optimize.minimize` call: the final iterate
`x` and the convergence flag `success`.  (SLSQP with `maxiter: 100`;
app.py lines 151-164 never read `success`.) -/
structure OptimizeResult where
  x : List ℚ
  success : Bool
deriving DecidableEq, Repr

/-- One row of the `hedge_scenarios` table (app.py lines 166-189) in the
delta+vega / full-neutral form: the hedge position shown is `res.x`, the
cost column is `np.abs(hedge_costs @ res.x)`, the residual delta column is
`hedge_greeks[:,0] @ res.x - net_delta`, and the residual vega column is
`hedge_greeks[:,2] @ res.x - net_vega`. -/
structure ScenarioRow where
  hedgePosition : List ℚ
  costUsd : ℚ
  residualDelta : ℚ
  residualVega : ℚ
deriving DecidableEq, Repr

/-- Builds a `hedge_scenarios` row from a solver result (app.py lines
166-189).  Only `res.x` is consulted; `res.success` is not. -/
def scenarioRow (hs : List HedgeInstrument) (netd netv : ℚ)
    (res : OptimizeResult) : ScenarioRow :=
  ⟨res.x, costTerm hs res.x,
   hedge_delta hs res.x - netd,
   hedge_vega hs res.x - netv⟩

/-- The quantity vectors admitted by `bounds=[(-50000, 50000)] * n_hedges`
(app.py line 153): length-`n` vectors with every entry in the box. -/
def hedgeBox (n : ℕ) : Set (List ℚ) :=
  {xs | xs.length = n ∧ ∀ xi ∈ xs, -50000 ≤ xi ∧ xi ≤ 50000}

/-- `x` is a global minimizer of the code's objective `hedge_cost` over the
feasible set `S` for the given targets — the idealized outcome of the
`minimize` calls at app.py lines 151-164. -/
def isOptimalOn (hs : List HedgeInstrument) (S : Set (List ℚ))
    (td tg tv : ℚ) (x : List ℚ) : Prop :=
  x ∈ S ∧ ∀ y ∈ S, hedge_cost hs x td tg tv ≤ hedge_cost hs y td tg tv

/-- The delta weight inside `greek_error` (app.py line 141): the squared
delta deviation carries an implicit coefficient 1. -/
def w_delta : ℚ := 1

/-- The gamma weight inside `greek_error` (app.py line 142). -/
def w_gamma : ℚ := 10

/-- The vega weight inside `greek_error` (app.py line 143). -/
def w_vega : ℚ := 5

/-- The overall scale on the Greek penalty relative to the cost term
(`cost + 100 * greek_error`, app.py line 146). -/
def penaltyScale : ℚ := 100

/-- The specification's transaction-cost formula, Σ |xᵢ| · costᵢ (spec
§4.4), stated for comparison with the code's `costTerm`. -/
def specAbsCostSum (hs : List HedgeInstrument) (x : List ℚ) : ℚ :=
  (List.zipWith (fun h xi => |xi| * h.cost_per_bbl) hs x).sum

/-- A single-instrument menu: one future with per-bbl delta 1, no
gamma/vega/theta, zero transaction cost — the hedge instrument of the
spec's delta-neutral optimizer scenario (spec §8). -/
def futOnly : List HedgeInstrument := [⟨1, 0, 0, 0, 0⟩]

/-- A two-instrument menu used as a concrete input. -/
def thetaMenuA : List HedgeInstrument :=
  [⟨1, 0, 0, 0, 0⟩, ⟨2, 1, 3, -1, 2⟩]

/-- The same menu as `thetaMenuA` except for the per-bbl theta values. -/
def thetaMenuB : List HedgeInstrument :=
  [⟨1, 0, 0, 7, 0⟩, ⟨2, 1, 3, 5, 2⟩]

/-- Option kind for the pricer contract (spec §3, `OptionSpec`). -/
inductive OptionKind where
  | call : OptionKind
  | put : OptionKind
deriving DecidableEq, Repr

/-- Error taxonomy of spec §7 for the pricer: `InvalidMarketInput` names
the violated field. -/
inductive PricerError where
  | invalidMarketInput (field : String) : PricerError
deriving DecidableEq, Repr

/-- `GreeksResult` of spec §3: per-unit price and sensitivities. -/
structure GreeksResult where
  price : ℝ
  delta : ℝ
  gamma : ℝ
  vega : ℝ
  theta : ℝ

/-- Modelled from the spec: the Black-Scholes pricer
`price_and_greeks(spot, strike, time_to_expiry, rate, volatility, kind)`
of spec §4.1 is not present in `src/` (the app takes Greeks as direct user
input), so it is reproduced here from the spec's own formulas.  `Φ` and
`φ` are the standard normal CDF and PDF, passed as parameters.  Per spec
§4.1/§7: volatility ≤ 0, strike ≤ 0 and spot ≤ 0 are rejected with an
`InvalidMarketInput` error naming the violated field; non-positive
time-to-expiry is the only sanctioned silent correction, clamped to the
epsilon floor 1e-6 years. -/
noncomputable def price_and_greeks (Φ φ : ℝ → ℝ)
    (spot strike time_to_expiry rate volatility : ℝ) (kind : OptionKind) :
    Except PricerError GreeksResult :=
  if volatility ≤ 0 then Except.error (PricerError.invalidMarketInput "volatility")
  else if strike ≤ 0 then Except.error (PricerError.invalidMarketInput "strike")
  else if spot ≤ 0 then Except.error (PricerError.invalidMarketInput "spot")
  else
    let T := max time_to_expiry (1 / 1000000)
    let sqrtT := Real.sqrt T
    let d1 := (Real.log (spot / strike) + (rate + volatility ^ 2 / 2) * T) /
      (volatility * sqrtT)
    let d2 := d1 - volatility * sqrtT
    let gamma := φ d1 / (spot * volatility * sqrtT)
    let vega := spot * φ d1 * sqrtT
    match kind with
    | OptionKind.call =>
        Except.ok
          ⟨spot * Φ d1 - strike * Real.exp (-rate * T) * Φ d2,
           Φ d1, gamma, vega,
           -(spot * φ d1 * volatility) / (2 * sqrtT) -
             rate * strike * Real.exp (-rate * T) * Φ d2⟩
    | OptionKind.put =>
        Except.ok
          ⟨strike * Real.exp (-rate * T) * Φ (-d2) - spot * Φ (-d1),
           -Φ (-d1), gamma, vega,
           -(spot * φ d1 * volatility) / (2 * sqrtT) +
             rate * strike * Real.exp (-rate * T) * Φ (-d2)⟩

/-! ## Helper lemmas -/

/-- The objective is a sum of an absolute value and weighted squares, hence
nonnegative. -/
theorem hedge_cost_nonneg (hs : List HedgeInstrument) (x : List ℚ)
    (td tg tv : ℚ) : 0 ≤ hedge_cost hs x td tg tv := by
  unfold hedge_cost costTerm
  positivity

/-- Triangle inequality for the code's cost term against the spec's
Σ |xᵢ| · costᵢ, for nonnegative per-unit costs. -/
theorem abs_dot_cost_le : ∀ (hs : List HedgeInstrument) (x : List ℚ),
    (∀ h ∈ hs, 0 ≤ h.cost_per_bbl) →
    |dot (hs.map (fun h => h.cost_per_bbl)) x| ≤ specAbsCostSum hs x
  | [], x, _ => by simp [dot, specAbsCostSum]
  | _ :: _, [], _ => by simp [dot, specAbsCostSum]
  | h :: t, xi :: xt, hc => by
    have ih := abs_dot_cost_le t xt (fun g hg => hc g (List.mem_cons_of_mem _ hg))
    have hc0 : 0 ≤ h.cost_per_bbl := hc h (List.mem_cons_self _ _)
    simp only [dot, specAbsCostSum, List.map_cons, List.zipWith_cons_cons,
      List.sum_cons]
    calc |h.cost_per_bbl * xi + (List.zipWith (· * ·)
            (t.map (fun h => h.cost_per_bbl)) xt).sum|
        ≤ |h.cost_per_bbl * xi| + |(List.zipWith (· * ·)
            (t.map (fun h => h.cost_per_bbl)) xt).sum| := abs_add _ _
      _ ≤ |xi| * h.cost_per_bbl + specAbsCostSum t xt := by
          have : |h.cost_per_bbl * xi| = |xi| * h.cost_per_bbl := by
            rw [abs_mul, abs_of_nonneg hc0, mul_comm]
          rw [this]
          exact add_le_add_left ih _
      _ = |xi| * h.cost_per_bbl + (List.zipWith
            (fun h xi => |xi| * h.cost_per_bbl) t xt).sum := by
          simp [specAbsCostSum]

/-- When all quantities and all per-unit costs are nonnegative, the code's
dot product agrees with the spec's Σ |xᵢ| · costᵢ. -/
theorem dot_cost_eq_of_nonneg : ∀ (hs : List HedgeInstrument) (x : List ℚ),
    (∀ h ∈ hs, 0 ≤ h.cost_per_bbl) → (∀ xi ∈ x, 0 ≤ xi) →
    dot (hs.map (fun h => h.cost_per_bbl)) x = specAbsCostSum hs x
  | [], x, _, _ => by simp [dot, specAbsCostSum]
  | _ :: _, [], _, _ => by simp [dot, specAbsCostSum]
  | h :: t, xi :: xt, hc, hx => by
    have ih := dot_cost_eq_of_nonneg t xt
      (fun g hg => hc g (List.mem_cons_of_mem _ hg))
      (fun y hy => hx y (List.mem_cons_of_mem _ hy))
    have hx0 : 0 ≤ xi := hx xi (List.mem_cons_self _ _)
    simp only [dot, specAbsCostSum, List.map_cons, List.zipWith_cons_cons,
      List.sum_cons] at ih ⊢
    rw [abs_of_nonneg hx0, mul_comm, ih]

/-! ## Claims -/

/-- C6: aggregating an empty position list succeeds (the aggregation
functions are total) and yields all-zero net delta, gamma, vega and theta
(app.py lines 63-92; the empty pandas sum is 0). -/
theorem C6_empty_portfolio_zero_greeks :
    net_delta [] = 0 ∧ net_gamma [] = 0 ∧ net_vega [] = 0 ∧
    net_theta [] = 0 :=
  ⟨rfl, rfl, rfl, rfl⟩

/-- C3: a long position of size `q` and a short position of the same size
with identical long-basis per-bbl Greeks aggregate to net delta, gamma,
vega and theta all 0; and a single short position contributes each of the
four Greeks with sign flipped relative to the long basis (app.py lines
67-92). -/
theorem C3_long_short_symmetry (q d g v t : ℚ) :
    (net_delta [⟨Side.Long, q, d, g, v, t⟩, ⟨Side.Short, q, d, g, v, t⟩] = 0 ∧
     net_gamma [⟨Side.Long, q, d, g, v, t⟩, ⟨Side.Short, q, d, g, v, t⟩] = 0 ∧
     net_vega [⟨Side.Long, q, d, g, v, t⟩, ⟨Side.Short, q, d, g, v, t⟩] = 0 ∧
     net_theta [⟨Side.Long, q, d, g, v, t⟩, ⟨Side.Short, q, d, g, v, t⟩] = 0) ∧
    (net_delta [⟨Side.Short, q, d, g, v, t⟩] = -(d * q) ∧
     net_gamma [⟨Side.Short, q, d, g, v, t⟩] = -(g * q) ∧
     net_vega [⟨Side.Short, q, d, g, v, t⟩] = -(v * q) ∧
     net_theta [⟨Side.Short, q, d, g, v, t⟩] = -(t * q)) := by
  refine ⟨⟨?_, ?_, ?_, ?_⟩, ?_, ?_, ?_, ?_⟩ <;>
    simp [net_delta, net_gamma, net_vega, net_theta, effective_delta,
      effective_gamma, effective_vega, effective_theta]

/-- C8: the objective decomposes as cost + penaltyScale · (w_delta·Δdev² +
w_gamma·Γdev² + w_vega·Vdev²) with w_gamma = 10 and w_vega = 5 both
strictly above w_delta = 1, and the overall penalty scale 100 strictly
above the (unit) coefficient of the cost term (app.py lines 140-146). -/
theorem C8_penalty_weights (hs : List HedgeInstrument) (x : List ℚ)
    (td tg tv : ℚ) :
    hedge_cost hs x td tg tv =
      costTerm hs x + penaltyScale *
        (w_delta * (hedge_delta hs x - td) ^ 2 +
         w_gamma * (hedge_gamma hs x - tg) ^ 2 +
         w_vega * (hedge_vega hs x - tv) ^ 2) ∧
    w_delta < w_gamma ∧ w_delta < w_vega ∧ 1 < penaltyScale ∧
    penaltyScale = 100 := by
  refine ⟨?_, by norm_num [w_delta, w_gamma], by norm_num [w_delta, w_vega],
    by norm_num [penaltyScale], rfl⟩
  simp only [hedge_cost, w_delta, w_gamma, w_vega, penaltyScale]
  ring

/-- C10: an instrument whose rounded optimal quantity has absolute value at
most 10 produces no recommended trade, regardless of its name or cost
(`if abs(qty) > 10`, app.py line 197). -/
theorem C10_small_quantity_no_trade (name : String) (cost x : ℚ)
    (rest : List (String × ℚ)) (xs : List ℚ)
    (h : (roundHalfEven x).natAbs ≤ 10) :
    tradeLine name cost x = none ∧
    recommendedTrades ((name, cost) :: rest) (x :: xs) =
      recommendedTrades rest xs := by
  have h' : ¬ 10 < (roundHalfEven x).natAbs := not_lt.mpr h
  constructor
  · simp [tradeLine, h']
  · simp [recommendedTrades, tradeLine, h']

/-- Witness for C10 at quantity 10.5 (numpy rounds it half-to-even to 10,
so no trade line is emitted even though 10.5 > 10). -/
theorem C10_small_quantity_no_trade_witness :
    (roundHalfEven (21 / 2)).natAbs ≤ 10 ∧
    (tradeLine "Call 85" 0.75 (21 / 2) = none ∧
     recommendedTrades [("Call 85", 0.75)] [21 / 2] =
       recommendedTrades [] []) := by
  have e : roundHalfEven (21 / 2) = 10 := by norm_num [roundHalfEven]
  have h : (roundHalfEven (21 / 2)).natAbs ≤ 10 := by rw [e]; decide
  exact ⟨h, C10_small_quantity_no_trade "Call 85" 0.75 (21 / 2) [] [] h⟩

/-- C4 counterexample: with two zero-Greek instruments of unit cost and
quantities (1, −1), the code's cost term `np.abs(hedge_costs @ x)` is 0
(the costs of the buy and the sell cancel inside the dot product), while
the claimed Σ |xᵢ| · costᵢ is 2; the whole objective evaluates to 0.  So
the transaction-cost term of `hedge_cost` is not Σ |xᵢ| · costᵢ. -/
theorem C4_cost_term_counterexample :
    costTerm [⟨0, 0, 0, 0, 1⟩, ⟨0, 0, 0, 0, 1⟩] [1, -1] = 0 ∧
    specAbsCostSum [⟨0, 0, 0, 0, 1⟩, ⟨0, 0, 0, 0, 1⟩] [1, -1] = 2 ∧
    hedge_cost [⟨0, 0, 0, 0, 1⟩, ⟨0, 0, 0, 0, 1⟩] [1, -1] 0 0 0 = 0 ∧
    costTerm [⟨0, 0, 0, 0, 1⟩, ⟨0, 0, 0, 0, 1⟩] [1, -1] ≠
      specAbsCostSum [⟨0, 0, 0, 0, 1⟩, ⟨0, 0, 0, 0, 1⟩] [1, -1] := by
  refine ⟨?_, ?_, ?_, ?_⟩ <;>
    norm_num [costTerm, specAbsCostSum, hedge_cost, dot, hedge_delta,
      hedge_gamma, hedge_vega]

/-- C4 (amended): the transaction-cost term of the objective is
`|Σ xᵢ · costᵢ|`, which (for nonnegative per-unit costs) never exceeds the
claimed Σ |xᵢ| · costᵢ and coincides with it whenever every quantity is
nonnegative. -/
theorem C4_cost_term_amended (hs : List HedgeInstrument) (x : List ℚ)
    (hc : ∀ h ∈ hs, 0 ≤ h.cost_per_bbl) :
    costTerm hs x ≤ specAbsCostSum hs x ∧
    ((∀ xi ∈ x, 0 ≤ xi) → costTerm hs x = specAbsCostSum hs x) := by
  refine ⟨abs_dot_cost_le hs x hc, fun hx => ?_⟩
  have h1 := dot_cost_eq_of_nonneg hs x hc hx
  have h2 : 0 ≤ specAbsCostSum hs x :=
    le_trans (abs_nonneg _) (abs_dot_cost_le hs x hc)
  unfold costTerm
  rw [h1, abs_of_nonneg h2]

/-- Witness for the amended C4 at a concrete two-instrument menu and an
all-nonnegative quantity vector. -/
theorem C4_cost_term_amended_witness :
    (∀ h ∈ [(⟨0, 0, 0, 0, 1⟩ : HedgeInstrument), ⟨0, 0, 0, 0, 2⟩],
        0 ≤ h.cost_per_bbl) ∧
    (costTerm [⟨0, 0, 0, 0, 1⟩, ⟨0, 0, 0, 0, 2⟩] [3, 4] ≤
       specAbsCostSum [⟨0, 0, 0, 0, 1⟩, ⟨0, 0, 0, 0, 2⟩] [3, 4] ∧
     ((∀ xi ∈ [(3 : ℚ), 4], 0 ≤ xi) →
       costTerm [⟨0, 0, 0, 0, 1⟩, ⟨0, 0, 0, 0, 2⟩] [3, 4] =
         specAbsCostSum [⟨0, 0, 0, 0, 1⟩, ⟨0, 0, 0, 0, 2⟩] [3, 4])) := by
  have hc : ∀ h ∈ [(⟨0, 0, 0, 0, 1⟩ : HedgeInstrument), ⟨0, 0, 0, 0, 2⟩],
      0 ≤ h.cost_per_bbl := by decide
  exact ⟨hc, C4_cost_term_amended _ [3, 4] hc⟩

/-- C1: in the delta-neutral scenario with net delta 4500 and the single
zero-cost future, the code's objective `hedge_cost(x, net_delta, 0, 0)`
equals `100·(x − 4500)²` (app.py lines 135-154 pass `net_greeks['delta']`
itself as `target_delta`), so its unique minimum over the solver's box is
at x = +4500; the claimed x ≈ −4500 has objective 8.1·10⁹ and is not
optimal.  The code's hedge therefore doubles the delta exposure instead of
neutralizing it. -/
theorem C1_delta_neutral_scenario_targets_plus_net_delta :
    (∀ x : ℚ, hedge_cost futOnly [x] 4500 0 0 = 100 * (x - 4500) ^ 2) ∧
    isOptimalOn futOnly (hedgeBox 1) 4500 0 0 [4500] ∧
    ¬ isOptimalOn futOnly (hedgeBox 1) 4500 0 0 [-4500] ∧
    hedge_cost futOnly [4500] 4500 0 0 = 0 ∧
    hedge_cost futOnly [-4500] 4500 0 0 = 8100000000 := by
  have hval : ∀ x : ℚ, hedge_cost futOnly [x] 4500 0 0 =
      100 * (x - 4500) ^ 2 := by
    intro x
    simp [hedge_cost, hedge_delta, hedge_gamma, hedge_vega, costTerm, dot,
      futOnly]
  have h0 : hedge_cost futOnly [4500] 4500 0 0 = 0 := by
    rw [hval]; norm_num
  refine ⟨hval, ⟨?_, ?_⟩, ?_, h0, ?_⟩
  · exact ⟨rfl, by norm_num⟩
  · intro y _
    rw [h0]
    exact hedge_cost_nonneg futOnly y 4500 0 0
  · rintro ⟨-, hmin⟩
    have hmem : [(4500 : ℚ)] ∈ hedgeBox 1 := ⟨rfl, by norm_num⟩
    have := hmin [4500] hmem
    rw [h0, hval] at this
    norm_num at this
  · rw [hval]; norm_num

/-- C2: with a pure-delta portfolio of net delta +500 and the single
zero-cost future, the code's full-neutral objective is minimized at
x = +500, and the recommended-trades loop (app.py lines 194-200) prints
BUY 500 — not the SELL 500 the claim requires; symmetrically net delta
−500 yields SELL 500 instead of BUY 500.  The recommended quantity equals
+net_delta, not −net_delta. -/
theorem C2_recommended_trade_sign :
    net_delta [⟨Side.Long, 500, 1, 0, 0, 0⟩] = 500 ∧
    (∀ x : ℚ, hedge_cost futOnly [x] 500 0 0 = 100 * (x - 500) ^ 2) ∧
    isOptimalOn futOnly (hedgeBox 1) 500 0 0 [500] ∧
    recommendedTrades [("WTI Future", 0)] [500] =
      [⟨Direction.BUY, 500, "WTI Future", 0⟩] ∧
    (∀ x : ℚ, hedge_cost futOnly [x] (-500) 0 0 = 100 * (x + 500) ^ 2) ∧
    isOptimalOn futOnly (hedgeBox 1) (-500) 0 0 [-500] ∧
    recommendedTrades [("WTI Future", 0)] [-500] =
      [⟨Direction.SELL, 500, "WTI Future", 0⟩] := by
  have hvalp : ∀ x : ℚ, hedge_cost futOnly [x] 500 0 0 =
      100 * (x - 500) ^ 2 := by
    intro x
    simp [hedge_cost, hedge_delta, hedge_gamma, hedge_vega, costTerm, dot,
      futOnly]
  have hvalm : ∀ x : ℚ, hedge_cost futOnly [x] (-500) 0 0 =
      100 * (x + 500) ^ 2 := by
    intro x
    simp [hedge_cost, hedge_delta, hedge_gamma, hedge_vega, costTerm, dot,
      futOnly]
  have ep : roundHalfEven 500 = 500 := by norm_num [roundHalfEven]
  have em : roundHalfEven (-500) = -500 := by norm_num [roundHalfEven]
  refine ⟨?_, hvalp, ⟨⟨rfl, by norm_num⟩, ?_⟩, ?_, hvalm,
    ⟨⟨rfl, by norm_num⟩, ?_⟩, ?_⟩
  · simp [net_delta, effective_delta]
  · intro y _
    have : hedge_cost futOnly [500] 500 0 0 = 0 := by rw [hvalp]; norm_num
    rw [this]
    exact hedge_cost_nonneg futOnly y 500 0 0
  · simp [recommendedTrades, tradeLine, ep]
  · intro y _
    have : hedge_cost futOnly [-500] (-500) 0 0 = 0 := by rw [hvalm]; norm_num
    rw [this]
    exact hedge_cost_nonneg futOnly y (-500) 0 0
  · simp [recommendedTrades, tradeLine, em]

/-- C5 counterexample: a solve that did not converge (`success = false`)
with final iterate (0,0,0,0) is rendered into exactly the same scenario row
and the same recommended trades as a converged solve with the same iterate:
nothing in app.py lines 166-200 reads `res.success`, so non-convergence is
not surfaced as a distinct result. -/
theorem C5_nonconvergence_not_surfaced_counterexample :
    scenarioRow defaultHedges 4250 1460 ⟨[0, 0, 0, 0], false⟩ =
      scenarioRow defaultHedges 4250 1460 ⟨[0, 0, 0, 0], true⟩ ∧
    recommendedTrades
        (defaultHedgeNames.zip (defaultHedges.map (fun h => h.cost_per_bbl)))
        (OptimizeResult.mk [0, 0, 0, 0] false).x =
      recommendedTrades
        (defaultHedgeNames.zip (defaultHedges.map (fun h => h.cost_per_bbl)))
        (OptimizeResult.mk [0, 0, 0, 0] true).x :=
  ⟨rfl, rfl⟩

/-- C5 (amended): the scenarios table does carry the solver's last iterate
and its residual Greeks, but convergence failure is not surfaced: every
displayed field is computed from `res.x` alone, so the rendering is
independent of the `success` flag and a non-converged result is presented
identically to a converged one. -/
theorem C5_presentation_independent_of_success (hs : List HedgeInstrument)
    (netd netv : ℚ) (x : List ℚ) (s₁ s₂ : Bool)
    (namesCosts : List (String × ℚ)) :
    scenarioRow hs netd netv ⟨x, s₁⟩ = scenarioRow hs netd netv ⟨x, s₂⟩ ∧
    (scenarioRow hs netd netv ⟨x, s₁⟩).hedgePosition = x ∧
    (scenarioRow hs netd netv ⟨x, s₁⟩).residualDelta =
      hedge_delta hs x - netd ∧
    (scenarioRow hs netd netv ⟨x, s₁⟩).residualVega =
      hedge_vega hs x - netv ∧
    recommendedTrades namesCosts (OptimizeResult.mk x s₁).x =
      recommendedTrades namesCosts (OptimizeResult.mk x s₂).x :=
  ⟨rfl, rfl, rfl, rfl, rfl⟩

/-- C7 (modelled from the spec; the pricer is absent from `src/`): any
call with volatility ≤ 0, strike ≤ 0 or spot ≤ 0 is rejected with an
`InvalidMarketInput` error naming a violated field; no Greeks are
computed. -/
theorem C7_pricer_rejects_invalid_market_input (Φ φ : ℝ → ℝ)
    (spot strike time_to_expiry rate volatility : ℝ) (kind : OptionKind)
    (h : volatility ≤ 0 ∨ strike ≤ 0 ∨ spot ≤ 0) :
    ∃ field : String,
      price_and_greeks Φ φ spot strike time_to_expiry rate volatility kind =
        Except.error (PricerError.invalidMarketInput field) ∧
      ((field = "volatility" ∧ volatility ≤ 0) ∨
       (field = "strike" ∧ strike ≤ 0) ∨
       (field = "spot" ∧ spot ≤ 0)) := by
  unfold price_and_greeks
  split_ifs with h1 h2 h3
  · exact ⟨"volatility", rfl, Or.inl ⟨rfl, h1⟩⟩
  · exact ⟨"strike", rfl, Or.inr (Or.inl ⟨rfl, h2⟩)⟩
  · exact ⟨"spot", rfl, Or.inr (Or.inr ⟨rfl, h3⟩)⟩
  · rcases h with h | h | h
    · exact absurd h h1
    · exact absurd h h2
    · exact absurd h h3

/-- Witness for C7: a negative volatility with otherwise valid market data
is rejected, naming the volatility field. -/
theorem C7_pricer_rejects_invalid_market_input_witness :
    ((-1 : ℝ) ≤ 0 ∨ (80 : ℝ) ≤ 0 ∨ (100 : ℝ) ≤ 0) ∧
    ∃ field : String,
      price_and_greeks id id 100 80 (1 / 4) (1 / 20) (-1) OptionKind.call =
        Except.error (PricerError.invalidMarketInput field) ∧
      ((field = "volatility" ∧ (-1 : ℝ) ≤ 0) ∨
       (field = "strike" ∧ (80 : ℝ) ≤ 0) ∨
       (field = "spot" ∧ (100 : ℝ) ≤ 0)) := by
  have h : (-1 : ℝ) ≤ 0 ∨ (80 : ℝ) ≤ 0 ∨ (100 : ℝ) ≤ 0 :=
    Or.inl (by norm_num)
  exact ⟨h, C7_pricer_rejects_invalid_market_input id id 100 80 (1 / 4)
    (1 / 20) (-1) OptionKind.call h⟩

/-- C9: two hedge menus that agree on per-bbl delta, gamma, vega and cost
(and may differ arbitrarily in theta) induce the same objective
`hedge_cost` at every quantity vector and every scenario target, the same
rendered scenario rows, and the same set of optimal quantity vectors over
any feasible set: the hedge instruments' theta (dropped at app.py line
108) never influences the optimization. -/
theorem C9_hedge_theta_noninterference (m₁ m₂ : List HedgeInstrument)
    (h : m₁.map (fun h =>
          (h.delta_per_bbl, h.gamma_per_bbl, h.vega_per_bbl, h.cost_per_bbl)) =
         m₂.map (fun h =>
          (h.delta_per_bbl, h.gamma_per_bbl, h.vega_per_bbl, h.cost_per_bbl))) :
    (∀ x td tg tv, hedge_cost m₁ x td tg tv = hedge_cost m₂ x td tg tv) ∧
    (∀ netd netv res, scenarioRow m₁ netd netv res =
      scenarioRow m₂ netd netv res) ∧
    (∀ (S : Set (List ℚ)) (td tg tv : ℚ) (x : List ℚ),
      isOptimalOn m₁ S td tg tv x ↔ isOptimalOn m₂ S td tg tv x) := by
  have hd : m₁.map (fun h => h.delta_per_bbl) =
      m₂.map (fun h => h.delta_per_bbl) := by
    have := congrArg (List.map (fun p : ℚ × ℚ × ℚ × ℚ => p.1)) h
    simpa [List.map_map, Function.comp] using this
  have hg : m₁.map (fun h => h.gamma_per_bbl) =
      m₂.map (fun h => h.gamma_per_bbl) := by
    have := congrArg (List.map (fun p : ℚ × ℚ × ℚ × ℚ => p.2.1)) h
    simpa [List.map_map, Function.comp] using this
  have hv : m₁.map (fun h => h.vega_per_bbl) =
      m₂.map (fun h => h.vega_per_bbl) := by
    have := congrArg (List.map (fun p : ℚ × ℚ × ℚ × ℚ => p.2.2.1)) h
    simpa [List.map_map, Function.comp] using this
  have hco : m₁.map (fun h => h.cost_per_bbl) =
      m₂.map (fun h => h.cost_per_bbl) := by
    have := congrArg (List.map (fun p : ℚ × ℚ × ℚ × ℚ => p.2.2.2)) h
    simpa [List.map_map, Function.comp] using this
  have hδ : ∀ x, hedge_delta m₁ x = hedge_delta m₂ x := by
    intro x; unfold hedge_delta; rw [hd]
  have hγ : ∀ x, hedge_gamma m₁ x = hedge_gamma m₂ x := by
    intro x; unfold hedge_gamma; rw [hg]
  have hν : ∀ x, hedge_vega m₁ x = hedge_vega m₂ x := by
    intro x; unfold hedge_vega; rw [hv]
  have hcost : ∀ x, costTerm m₁ x = costTerm m₂ x := by
    intro x; unfold costTerm; rw [hco]
  have hobj : ∀ x td tg tv, hedge_cost m₁ x td tg tv =
      hedge_cost m₂ x td tg tv := by
    intro x td tg tv
    simp only [hedge_cost, hδ x, hγ x, hν x, hcost x]
  refine ⟨hobj, ?_, ?_⟩
  · intro netd netv res
    simp only [scenarioRow, hcost, hδ, hν]
  · intro S td tg tv x
    unfold isOptimalOn
    constructor
    · rintro ⟨hx, hm⟩
      exact ⟨hx, fun y hy => by rw [← hobj, ← hobj]; exact hm y hy⟩
    · rintro ⟨hx, hm⟩
      exact ⟨hx, fun y hy => by rw [hobj, hobj]; exact hm y hy⟩

/-- Witness for C9 on two concrete menus that differ only in theta. -/
theorem C9_hedge_theta_noninterference_witness :
    (thetaMenuA.map (fun h =>
        (h.delta_per_bbl, h.gamma_per_bbl, h.vega_per_bbl, h.cost_per_bbl)) =
      thetaMenuB.map (fun h =>
        (h.delta_per_bbl, h.gamma_per_bbl, h.vega_per_bbl, h.cost_per_bbl))) ∧
    ((∀ x td tg tv, hedge_cost thetaMenuA x td tg tv =
        hedge_cost thetaMenuB x td tg tv) ∧
     (∀ netd netv res, scenarioRow thetaMenuA netd netv res =
        scenarioRow thetaMenuB netd netv res) ∧
     (∀ (S : Set (List ℚ)) (td tg tv : ℚ) (x : List ℚ),
        isOptimalOn thetaMenuA S td tg tv x ↔
          isOptimalOn thetaMenuB S td tg tv x)) := by
  have h : thetaMenuA.map (fun h =>
      (h.delta_per_bbl, h.gamma_per_bbl, h.vega_per_bbl, h.cost_per_bbl)) =
    thetaMenuB.map (fun h =>
      (h.delta_per_bbl, h.gamma_per_bbl, h.vega_per_bbl, h.cost_per_bbl)) := rfl
  exact ⟨h, C9_hedge_theta_noninterference thetaMenuA thetaMenuB h⟩
